import Mathlib

/-!
# CQL statement generation from a table schema: a verification development

Shallow embedding of the statement generator of
`cassandra_macro_derive/src/lib.rs` (struct `TableMeta` and the generated
trait implementation), together with the table-name derivation
`pascal_case_to_snake_case`.

Modelling conventions:

* Strings produced by the generator are modelled with Lean `String`;
  `format!` calls become explicit `++` concatenations with the exact
  literal fragments of the source, and `Vec::join` becomes `joinSep`.
* `TableMeta.columns` models the iteration order of the backing
  `HashMap<String, String>`: the source only ever consumes the map by
  iterating it, and repeated iteration of one unmodified map yields one
  fixed order, so the embedding quantifies over an arbitrary association
  list that stands for that order.
* `TableMeta.primary_keys` and `TableMeta.cluster_keys` model the value
  sequences of the backing `BTreeMap<u8, _>`s in key (position) order,
  which is the only way the source ever consumes them.
* The generated per-instance binding token streams
  (`self.<field>.clone(), ...`) are modelled as the ordered list of the
  rendered binding expressions.
* `pascal_case_to_snake_case` works on the UTF-8 bytes of its input
  (`as_bytes` / `Vec<u8>`), modelled as `List Nat`; the final
  `String::from_utf8(..).unwrap()` is modelled by a UTF-8 validity check
  returning `none` when the `unwrap` would panic.
-/

namespace CassandraGen

/-- Rust `Vec::<String>::join(sep)`. -/
def joinSep (sep : String) : List String → String
  | [] => ""
  | [s] => s
  | s :: ss => s ++ sep ++ joinSep sep ss

/-- Rust `char::to_uppercase` restricted to the ASCII range, which is how
`String::to_uppercase` acts on the ASCII CQL type names the generator
receives (on ASCII input the two agree byte for byte). -/
def rustToUpper (s : String) : String :=
  String.mk (s.data.map (fun c =>
    if 'a' ≤ c ∧ c ≤ 'z' then Char.ofNat (c.toNat - 32) else c))

/-- Rust `str::split('|')` on the characters of the options string
(`self.table_options.split("|")`). -/
def splitBar : List Char → List (List Char)
  | [] => [[]]
  | c :: cs =>
    let r := splitBar cs
    if c = '|' then [] :: r
    else
      match r with
      | [] => [[c]]
      | h :: t => (c :: h) :: t

/-- Rust `str::replace(pat, to)` for the one-character pattern `"*"`,
which the generated projection code uses: every occurrence of `'*'` in
the original string is replaced by `to`. -/
def replaceStar (s : String) (repl : String) : String :=
  String.mk ((s.data.map (fun c => if c = '*' then repl.data else [c])).flatten)

/-- Rust `"?,".repeat(n)` followed by `pop()` (drop of the final character),
as in `TableMeta::store_stmt`, at the character-list level. -/
def bindMarksData (n : Nat) : List Char :=
  (List.replicate n ['?', ',']).flatten.dropLast

/-- The schema model built by the derive implementation
(struct `TableMeta` in `cassandra_macro_derive/src/lib.rs`). -/
structure TableMeta where
  name : String
  key_space : String
  table_options : String
  /-- Field `columns: HashMap<String, String>`, as its iteration order. -/
  columns : List (String × String)
  /-- Field `static_columns: Vec<String>`. -/
  static_columns : List String
  /-- Field `primary_keys: BTreeMap<u8, String>`, values in position order. -/
  primary_keys : List String
  /-- Field `cluster_keys: BTreeMap<u8, (String, String)>`, values (column,
  order) in position order. -/
  cluster_keys : List (String × String)

namespace TableMeta

/-- Source `TableMeta::select_by_key`. -/
def select_by_key (m : TableMeta) : String :=
  "SELECT * FROM " ++ m.key_space ++ "." ++ m.name ++ " WHERE " ++
    joinSep "AND" (m.primary_keys.map (fun v => " " ++ v ++ "=? "))

/-- Source `TableMeta::select_by_keys`. -/
def select_by_keys (m : TableMeta) : String :=
  if m.cluster_keys = [] then m.select_by_key
  else m.select_by_key ++ " AND " ++
    joinSep "AND" (m.cluster_keys.map (fun c => " " ++ c.1 ++ "=? "))

/-- Source `TableMeta::delete_stmt`: the per-instance DELETE template and, in
placeholder order, the rendered binding expressions of its token
stream. -/
def delete_stmt (m : TableMeta) : String × List String :=
  let pk_values : List String := m.primary_keys
  let ck_values : List String := m.cluster_keys.map Prod.fst
  let keys : List (String × String) :=
    (pk_values ++ ck_values).map
      (fun c => (c ++ "=?", "self." ++ c ++ ".clone()"))
  ("DELETE FROM " ++ m.key_space ++ "." ++ m.name ++ " WHERE " ++
      joinSep " AND " (keys.map Prod.fst),
    keys.map Prod.snd)

/-- The `updatable_columns` accumulation loop of `TableMeta::update_stmt`:
columns whose name is neither a primary-key value nor a clustering-key
column, in column-iteration order. -/
def updatable_columns (m : TableMeta) : List String :=
  m.columns.filterMap (fun kt =>
    if m.primary_keys.contains kt.1 then none
    else if (m.cluster_keys.map Prod.fst).contains kt.1 then none
    else some kt.1)

/-- Source `TableMeta::update_stmt`: `None` when there is no updatable column,
otherwise the per-instance UPDATE template and, in placeholder order, the
rendered binding expressions of its token stream. -/
def update_stmt (m : TableMeta) : Option (String × List String) :=
  if m.updatable_columns = [] then none
  else
    let update_values : List (String × String) :=
      m.updatable_columns.map
        (fun c => (c ++ "=?", "self." ++ c ++ ".clone()"))
    let p_keys : List (String × String) :=
      m.primary_keys.map
        (fun pk => (pk ++ "=?", "self." ++ pk ++ ".clone()"))
    let ck_keys : List (String × String) :=
      m.cluster_keys.map
        (fun ck => (ck.1 ++ "=?", "self." ++ ck.1 ++ ".clone()"))
    let values : List String := (update_values ++ p_keys ++ ck_keys).map Prod.snd
    let pk_values : List String := m.primary_keys
    let ck_values : List String := m.cluster_keys.map Prod.fst
    let keys : List (String × String) :=
      (pk_values ++ ck_values).map
        (fun c => (c ++ "=?", "self." ++ c ++ ".clone()"))
    some ("UPDATE " ++ m.key_space ++ "." ++ m.name ++ " SET " ++
        joinSep "," (update_values.map Prod.fst) ++ " WHERE " ++
        joinSep " AND " (keys.map Prod.fst),
      values)

/-- Source `TableMeta::store_stmt`. -/
def store_stmt (m : TableMeta) : String :=
  "INSERT INTO " ++ m.key_space ++ "." ++ m.name ++ " (" ++
    joinSep "," (m.columns.map Prod.fst) ++ ") VALUES (" ++
    String.mk (bindMarksData m.columns.length) ++ ")"

/-- Source `TableMeta::store_values`: the rendered binding expressions of the
INSERT token stream, in column-iteration order. -/
def store_values (m : TableMeta) : List String :=
  m.columns.map (fun kt => "self." ++ kt.1 ++ ".clone()")

/-- The `columns` local of `TableMeta::create_table_cql`: the
comma-joined column definitions. -/
def colDefs (m : TableMeta) : String :=
  joinSep "," (m.columns.map (fun kt =>
    if m.static_columns.contains kt.1 then
      kt.1 ++ " " ++ kt.2 ++ " STATIC"
    else
      kt.1 ++ " " ++ rustToUpper kt.2))

/-- The `opt_parts` local of `TableMeta::create_table_cql`: the options
string split on the bar separator, empty segments dropped. -/
def optParts (m : TableMeta) : List String :=
  ((splitBar m.table_options.data).map String.mk).filter (fun o => ¬ o = "")

/-- Source `TableMeta::create_table_cql`. -/
def create_table_cql (m : TableMeta) : String :=
  let columns : String := m.colDefs
  let opt_parts : List String := m.optParts
  let c_order : List String := m.cluster_keys.map (fun co => co.1 ++ " " ++ co.2)
  let c_keys : List String := m.cluster_keys.map Prod.fst
  let table_options : String :=
    if m.cluster_keys.length > 0 then
      let base := "WITH CLUSTERING ORDER BY (" ++ joinSep "," c_order ++ ")"
      if opt_parts.length > 0 then base ++ " AND " ++ joinSep " AND " opt_parts
      else base
    else
      if opt_parts.length > 0 then "AND " ++ joinSep " AND " opt_parts
      else ""
  let primary_keys : String := joinSep "," m.primary_keys
  let create_stmt : String :=
    "CREATE TABLE IF NOT EXISTS " ++ m.key_space ++ "." ++ m.name ++ " "
  if c_keys.length > 0 then
    create_stmt ++ " (" ++ columns ++ ", PRIMARY KEY ((" ++ primary_keys ++
      "), " ++ joinSep "," c_keys ++ ") ) " ++ table_options
  else
    create_stmt ++ " (" ++ columns ++ ", PRIMARY KEY (" ++ primary_keys ++
      ") ) " ++ table_options

/-- The generated `update_query` accessor: the macro substitutes the empty
string when `update_stmt` returned `None`, and the generated body signals
`TableWithNoUpdatableColumnsError` exactly when the substituted template
is empty. -/
def update_query (m : TableMeta) : Except String (String × List String) :=
  let sv := m.update_stmt.getD ("", [])
  if sv.1 = "" then
    Except.error ("Table " ++ m.name ++ " does not have any updatable column")
  else
    Except.ok sv

end TableMeta

/-- The Projection enum of the runtime crate. -/
inductive Projection where
  | Count : Projection
  | All : Projection
  | Columns : List String → Projection

/-- The body shared by the generated `select_by_primary_keys` and
`select_by_primary_and_cluster_keys`: projection substitution into a
select template. -/
def applyProjection (p : Projection) (template : String) : String :=
  match p with
  | Projection.Count => replaceStar template "count(*) as count"
  | Projection.All => template
  | Projection.Columns c => replaceStar template (joinSep "," c)

/-- Generated `select_by_primary_keys`. -/
def selectByPrimaryKeys (m : TableMeta) (p : Projection) : String :=
  applyProjection p m.select_by_key

/-- Generated `select_by_primary_and_cluster_keys`. -/
def selectByPrimaryAndClusterKeys (m : TableMeta) (p : Projection) : String :=
  applyProjection p m.select_by_keys

/-- The loop body of `pascal_case_to_snake_case` from index 1 on: a byte
below 90 gets an underscore (95) and is shifted by the `OFFSET` 32; any
other byte is passed through. -/
def snakeTail : List Nat → List Nat
  | [] => []
  | b :: rest =>
    if b < 90 then 95 :: (b + 32) :: snakeTail rest
    else b :: snakeTail rest

/-- UTF-8 validity automaton (RFC 3629, the table enforced by Rust
`String::from_utf8`: no overlong forms, no surrogates, maximum U+10FFFF).
`expect` is the number of continuation bytes still owed; `lo`/`hi` bound
the next continuation byte (the first continuation of a sequence has a
lead-dependent range, later ones are 128..191). -/
def utf8Aux : List Nat → Nat → Nat → Nat → Bool
  | [], expect, _, _ => expect == 0
  | b :: rest, 0, _, _ =>
    if b ≤ 0x7F then utf8Aux rest 0 0 0
    else if 0xC2 ≤ b ∧ b ≤ 0xDF then utf8Aux rest 1 0x80 0xC0
    else if b = 0xE0 then utf8Aux rest 2 0xA0 0xC0
    else if b = 0xED then utf8Aux rest 2 0x80 0xA0
    else if 0xE0 ≤ b ∧ b ≤ 0xEF then utf8Aux rest 2 0x80 0xC0
    else if b = 0xF0 then utf8Aux rest 3 0x90 0xC0
    else if b = 0xF4 then utf8Aux rest 3 0x80 0x90
    else if 0xF0 ≤ b ∧ b ≤ 0xF4 then utf8Aux rest 3 0x80 0xC0
    else false
  | b :: rest, e + 1, lo, hi =>
    decide (lo ≤ b ∧ b < hi) && utf8Aux rest e 0x80 0xC0

/-- UTF-8 validity of a byte sequence, as checked by Rust
`String::from_utf8`. -/
def utf8Valid (bs : List Nat) : Bool :=
  utf8Aux bs 0 0 0

/-- Source `pascal_case_to_snake_case` on the UTF-8 bytes of its input: inputs
of byte length below 2 are returned verbatim; otherwise the first byte is
shifted by 32 when below 90 (no separator) and the remaining bytes go
through the loop (`snakeTail`); the final
`String::from_utf8(..).unwrap()` yields `none` when the produced byte
vector is not valid UTF-8 (the panic case). -/
def pascal_case_to_snake_case (bs : List Nat) : Option (List Nat) :=
  if bs.length < 2 then some bs
  else
    match bs with
    | [] => some []
    | b :: rest =>
      let out := (if b < 90 then [b + 32] else [b]) ++ snakeTail rest
      if utf8Valid out then some out else none

/-- Boolean test: `pat` is an initial segment of `s`. -/
def hasPre : List Char → List Char → Bool
  | [], _ => true
  | _ :: _, [] => false
  | p :: ps, c :: cs => p == c && hasPre ps cs

/-- Boolean test: `pat` occurs contiguously somewhere inside `s`. -/
def hasSub (pat : List Char) : List Char → Bool
  | [] => pat.isEmpty
  | c :: cs => hasPre pat (c :: cs) || hasSub pat cs

/-- Predicate: `pat` occurs in `s` starting at index `p`. -/
def occursAt (pat s : List Char) (p : Nat) : Prop :=
  ∃ t, s.drop p = pat ++ t

/-- Concrete schema: one plain column next to one primary key
(`username TEXT` primary, `first_name TEXT`), no clustering keys. -/
def exPlain : TableMeta :=
  { name := "user", key_space := "test", table_options := "",
    columns := [("username", "TEXT"), ("first_name", "TEXT")],
    static_columns := [], primary_keys := ["username"], cluster_keys := [] }

/-- Concrete schema with two primary keys and two clustering keys. -/
def exKeys : TableMeta :=
  { name := "user", key_space := "test", table_options := "",
    columns := [("a", "TEXT"), ("b", "TEXT"), ("c", "TEXT"), ("d", "TEXT"), ("e", "TEXT")],
    static_columns := [],
    primary_keys := ["a", "b"],
    cluster_keys := [("c", "ASC"), ("d", "DESC")] }

/-- Concrete schema whose only declared column is a primary key, while a
second primary key (`b`) was registered without a declared column type —
reachable with `#[column(primary_key)]` and no `type` item. -/
def exKeysOnly : TableMeta :=
  { name := "t", key_space := "k", table_options := "",
    columns := [("a", "TEXT")],
    static_columns := [], primary_keys := ["a", "b"], cluster_keys := [] }

/-- Concrete schema with a static column declared with a lower-case
type. -/
def exStatic : TableMeta :=
  { name := "t", key_space := "k", table_options := "",
    columns := [("a", "text")],
    static_columns := ["a"], primary_keys := ["a"], cluster_keys := [] }

/-! ## Helper lemmas on strings and lists -/

theorem data_append (a b : String) : (a ++ b).data = a.data ++ b.data := rfl

theorem count_joinSep_zero (ch : Char) (sep : String) (ls : List String)
    (h : ∀ s ∈ ls, ch ∉ s.data) (hsep : ch ∉ sep.data) :
    (joinSep sep ls).data.count ch = 0 := by
  induction ls with
  | nil => rfl
  | cons s ss ih =>
    cases ss with
    | nil =>
      simp only [joinSep]
      exact List.count_eq_zero.mpr (h s (by simp))
    | cons s2 t =>
      simp only [joinSep, data_append, List.count_append]
      rw [List.count_eq_zero.mpr (h s (by simp)), List.count_eq_zero.mpr hsep,
        ih (fun x hx => h x (by simp [hx]))]

theorem count_joinSep_ones (ch : Char) (sep : String) (ls : List String)
    (h : ∀ s ∈ ls, s.data.count ch = 1) (hsep : ch ∉ sep.data) :
    (joinSep sep ls).data.count ch = ls.length := by
  induction ls with
  | nil => rfl
  | cons s ss ih =>
    cases ss with
    | nil => simpa [joinSep] using h s (by simp)
    | cons s2 t =>
      simp only [joinSep, data_append, List.count_append]
      rw [h s (by simp), List.count_eq_zero.mpr hsep,
        ih (fun x hx => h x (by simp [hx]))]
      simp only [List.length_cons]
      omega

theorem joinSep_mem_decomp (sep : String) (ls : List String) (x : String)
    (hx : x ∈ ls) : ∃ a b, (joinSep sep ls).data = a ++ x.data ++ b := by
  induction ls with
  | nil => cases hx
  | cons s ss ih =>
    cases ss with
    | nil =>
      rcases List.mem_singleton.mp hx with rfl
      exact ⟨[], [], by simp [joinSep]⟩
    | cons s2 t =>
      rcases List.mem_cons.mp hx with rfl | hmem
      · exact ⟨[], sep.data ++ (joinSep sep (s2 :: t)).data, by
          simp [joinSep, data_append]⟩
      · obtain ⟨a, b, hab⟩ := ih hmem
        exact ⟨s.data ++ sep.data ++ a, b, by
          simp [joinSep, data_append, hab]⟩

theorem joinSep_cons_data (sep : String) (s : String) (ss : List String) :
    ∃ r, (joinSep sep (s :: ss)).data = s.data ++ r := by
  cases ss with
  | nil => exact ⟨[], by simp [joinSep]⟩
  | cons s2 t =>
    exact ⟨sep.data ++ (joinSep sep (s2 :: t)).data, by
      simp [joinSep, data_append]⟩

theorem append_left_ne_empty (a b : String) (h : a.data ≠ []) : a ++ b ≠ "" := by
  intro hc
  have := congrArg String.data hc
  rw [data_append] at this
  exact h (List.append_eq_nil.mp this).1

theorem mem_of_getElem_some {α : Type} {l : List α} {i : Nat} {a : α}
    (h : l[i]? = some a) : a ∈ l := by
  obtain ⟨hlt, he⟩ := List.getElem?_eq_some_iff.mp h
  exact he ▸ List.getElem_mem hlt

theorem hasPre_iff (pat : List Char) : ∀ s : List Char,
    (hasPre pat s = true ↔ ∃ t, s = pat ++ t) := by
  induction pat with
  | nil => intro s; simp [hasPre]
  | cons p ps ih =>
    intro s
    cases s with
    | nil => simp [hasPre]
    | cons c cs =>
      simp only [hasPre, Bool.and_eq_true, beq_iff_eq, ih]
      constructor
      · rintro ⟨rfl, t, rfl⟩
        exact ⟨t, rfl⟩
      · rintro ⟨t, ht⟩
        have h1 : c = p := by injection ht
        have h2 : cs = ps ++ t := by injection ht
        exact ⟨h1.symm, t, h2⟩

theorem hasSub_iff (pat : List Char) : ∀ s : List Char,
    (hasSub pat s = true ↔ ∃ a b, s = a ++ pat ++ b) := by
  intro s
  induction s with
  | nil =>
    simp only [hasSub, List.isEmpty_iff]
    constructor
    · rintro rfl
      exact ⟨[], [], rfl⟩
    · rintro ⟨a, b, h⟩
      have := List.append_eq_nil.mp h.symm
      exact (List.append_eq_nil.mp this.1).2
  | cons c cs ih =>
    simp only [hasSub, Bool.or_eq_true, hasPre_iff, ih]
    constructor
    · rintro (⟨t, ht⟩ | ⟨a, b, rfl⟩)
      · exact ⟨[], t, by simp [ht]⟩
      · exact ⟨c :: a, b, rfl⟩
    · rintro ⟨a, b, h⟩
      cases a with
      | nil =>
        exact Or.inl ⟨b, by simpa using h⟩
      | cons a0 as =>
        right
        have h2 : cs = as ++ pat ++ b := by
          have : c :: cs = a0 :: (as ++ pat ++ b) := by simpa using h
          injection this
        exact ⟨as, b, h2⟩

theorem count_one_decomp (a : Char) (l : List Char) (h : l.count a = 1) :
    ∃ pre post, l = pre ++ [a] ++ post ∧ pre.count a = 0 ∧ post.count a = 0 := by
  induction l with
  | nil => simp at h
  | cons c cs ih =>
    by_cases hca : c = a
    · subst hca
      have h0 : cs.count c = 0 := by simpa [List.count_cons] using h
      exact ⟨[], cs, by simp, by simp, h0⟩
    · have h1 : cs.count a = 1 := by simpa [List.count_cons, hca] using h
      obtain ⟨pre, post, hl, hp, hq⟩ := ih h1
      exact ⟨c :: pre, post, by simp [hl], by simp [List.count_cons, hca, hp], hq⟩

theorem count_one_unique_pos (a : Char) (l : List Char) (h : l.count a = 1) :
    ∀ (i j : Nat), l[i]? = some a → l[j]? = some a → i = j := by
  induction l with
  | nil =>
    intro i j hi _
    simp at hi
  | cons c cs ih =>
    intro i j hi hj
    by_cases hca : c = a
    · subst hca
      have h0 : cs.count c = 0 := by simpa [List.count_cons] using h
      have hnm : c ∉ cs := List.count_eq_zero.mp h0
      match i, j with
      | 0, 0 => rfl
      | 0, j + 1 =>
        rw [List.getElem?_cons_succ] at hj
        exact absurd (mem_of_getElem_some hj) hnm
      | i + 1, 0 =>
        rw [List.getElem?_cons_succ] at hi
        exact absurd (mem_of_getElem_some hi) hnm
      | i + 1, j + 1 =>
        rw [List.getElem?_cons_succ] at hi
        exact absurd (mem_of_getElem_some hi) hnm
    · have h1 : cs.count a = 1 := by simpa [List.count_cons, hca] using h
      match i, j with
      | 0, j =>
        rw [List.getElem?_cons_zero] at hi
        exact absurd (Option.some.inj hi) hca
      | i + 1, 0 =>
        rw [List.getElem?_cons_zero] at hj
        exact absurd (Option.some.inj hj) hca
      | i + 1, j + 1 =>
        rw [List.getElem?_cons_succ] at hi hj
        exact congrArg Nat.succ (ih h1 i j hi hj)

theorem flatten_star_free (l : List Char) (repl : List Char)
    (h : l.count '*' = 0) :
    ((l.map (fun c => if c = '*' then repl else [c])).flatten) = l := by
  induction l with
  | nil => rfl
  | cons c cs ih =>
    by_cases hc : c = '*'
    · subst hc
      simp [List.count_cons] at h
    · have h1 : cs.count '*' = 0 := by simpa [List.count_cons, hc] using h
      simp [List.map_cons, List.flatten_cons, hc, ih h1]

theorem replace_map_decomp (pre post repl : List Char)
    (hp : pre.count '*' = 0) (hq : post.count '*' = 0) :
    (((pre ++ ['*'] ++ post).map
        (fun c => if c = '*' then repl else [c])).flatten) =
      pre ++ repl ++ post := by
  simp only [List.map_append, List.flatten_append, flatten_star_free pre repl hp,
    flatten_star_free post repl hq, List.map_cons, List.map_nil,
    List.flatten_cons, List.flatten_nil, List.append_nil]
  simp [List.append_assoc]

theorem occursAt_char_pos (pat s : List Char) (p i : Nat) (c : Char)
    (hpat : pat[i]? = some c) (h : occursAt pat s p) :
    s[p + i]? = some c := by
  obtain ⟨t, ht⟩ := h
  have hd : (s.drop p)[i]? = some c := by
    rw [ht]
    have hlt : i < pat.length := (List.getElem?_eq_some_iff.mp hpat).1
    rw [List.getElem?_append_left hlt]
    exact hpat
  rw [List.getElem?_drop] at hd
  exact hd

/-- The elimination loop of `update_stmt` leaves no updatable column
exactly when every declared column is registered as a primary key or as a
clustering key. -/
theorem updatable_columns_eq_nil_iff (m : TableMeta) :
    m.updatable_columns = [] ↔
      ∀ kt ∈ m.columns,
        kt.1 ∈ m.primary_keys ∨ kt.1 ∈ m.cluster_keys.map Prod.fst := by
  unfold TableMeta.updatable_columns
  rw [List.filterMap_eq_nil_iff]
  constructor
  · intro h kt hkt
    have hf := h kt hkt
    by_cases h1 : m.primary_keys.contains kt.1 = true
    · exact Or.inl (by simpa using h1)
    · by_cases h2 : (m.cluster_keys.map Prod.fst).contains kt.1 = true
      · exact Or.inr (by simpa using h2)
      · rw [if_neg h1, if_neg h2] at hf
        exact absurd hf (by simp)
  · intro h kt hkt
    rcases h kt hkt with h1 | h1
    · have hb : m.primary_keys.contains kt.1 = true := by simpa using h1
      rw [if_pos hb]
    · have hb : (m.cluster_keys.map Prod.fst).contains kt.1 = true := by
        simpa using h1
      by_cases h3 : m.primary_keys.contains kt.1 = true
      · rw [if_pos h3]
      · rw [if_neg h3, if_pos hb]

/-- Closed form of `update_stmt` when at least one updatable column
exists: the template and, in placeholder order, the binding list. -/
theorem update_stmt_eq (m : TableMeta) (hu : ¬ m.updatable_columns = []) :
    m.update_stmt = some
      ("UPDATE " ++ m.key_space ++ "." ++ m.name ++ " SET " ++
        joinSep "," (m.updatable_columns.map (fun c => c ++ "=?")) ++ " WHERE " ++
        joinSep " AND " ((m.primary_keys ++ m.cluster_keys.map Prod.fst).map
          (fun c => c ++ "=?")),
       (m.updatable_columns ++ m.primary_keys ++ m.cluster_keys.map Prod.fst).map
         (fun c => "self." ++ c ++ ".clone()")) := by
  unfold TableMeta.update_stmt
  rw [if_neg hu]
  simp only [List.map_append, List.map_map]
  rfl

/-- Closed form of `delete_stmt`: the template and, in placeholder order,
the binding list. -/
theorem delete_stmt_eq (m : TableMeta) :
    m.delete_stmt =
      ("DELETE FROM " ++ m.key_space ++ "." ++ m.name ++ " WHERE " ++
        joinSep " AND " ((m.primary_keys ++ m.cluster_keys.map Prod.fst).map
          (fun c => c ++ "=?")),
       (m.primary_keys ++ m.cluster_keys.map Prod.fst).map
         (fun c => "self." ++ c ++ ".clone()")) := by
  unfold TableMeta.delete_stmt
  simp only [List.map_map]
  rfl

theorem bindMarksData_count : ∀ n : Nat, (bindMarksData n).count '?' = n := by
  intro n
  induction n with
  | zero => rfl
  | succ k ih =>
    cases k with
    | zero => rfl
    | succ j =>
      have hstep : bindMarksData (j + 2) = '?' :: ',' :: bindMarksData (j + 1) := rfl
      rw [hstep]
      simp [List.count_cons, ih]

theorem count_assign_one (c : String) (hc : '?' ∉ c.data) :
    ((c ++ "=?").data).count '?' = 1 := by
  rw [data_append, List.count_append, List.count_eq_zero.mpr hc]
  decide

/-- Closed form of `create_table_cql` when no clustering key exists. -/
theorem create_table_cql_no_ck (m : TableMeta) (h : m.cluster_keys = []) :
    m.create_table_cql =
      "CREATE TABLE IF NOT EXISTS " ++ m.key_space ++ "." ++ m.name ++ " " ++
      " (" ++ m.colDefs ++ ", PRIMARY KEY (" ++ joinSep "," m.primary_keys ++
      ") ) " ++
      (if m.optParts.length > 0 then "AND " ++ joinSep " AND " m.optParts
       else "") := by
  unfold TableMeta.create_table_cql
  rw [h]
  rfl

/-- Closed form of `create_table_cql` when clustering keys exist. -/
theorem create_table_cql_with_ck (m : TableMeta) (c0 : String × String)
    (cs : List (String × String)) (h : m.cluster_keys = c0 :: cs) :
    m.create_table_cql =
      "CREATE TABLE IF NOT EXISTS " ++ m.key_space ++ "." ++ m.name ++ " " ++
      " (" ++ m.colDefs ++ ", PRIMARY KEY ((" ++ joinSep "," m.primary_keys ++
      "), " ++ joinSep "," ((c0 :: cs).map Prod.fst) ++ ") ) " ++
      (if m.optParts.length > 0 then
        "WITH CLUSTERING ORDER BY (" ++
          joinSep "," ((c0 :: cs).map (fun co => co.1 ++ " " ++ co.2)) ++ ")" ++
          " AND " ++ joinSep " AND " m.optParts
       else
        "WITH CLUSTERING ORDER BY (" ++
          joinSep "," ((c0 :: cs).map (fun co => co.1 ++ " " ++ co.2)) ++ ")") := by
  unfold TableMeta.create_table_cql
  rw [h]
  have h1 : ((c0 :: cs).map Prod.fst).length > 0 := by simp
  have h2 : (c0 :: cs).length > 0 := by simp
  simp only []
  rw [if_pos h2, if_pos h1]

/-! ## The claims -/

/-- Claim C7: when at least one clustering key exists, the
select-by-primary-and-cluster-keys template is the select-by-primary-keys
template with an AND clause of the clustering keys, in position order,
appended; with no clustering keys the two templates are identical. -/
theorem select_by_keys_extends_select_by_key (m : TableMeta) :
    (m.cluster_keys = [] → m.select_by_keys = m.select_by_key) ∧
    (¬ m.cluster_keys = [] →
      m.select_by_keys = m.select_by_key ++ " AND " ++
        joinSep "AND" (m.cluster_keys.map (fun c => " " ++ c.1 ++ "=? "))) := by
  constructor
  · intro h
    simp [TableMeta.select_by_keys, h]
  · intro h
    simp [TableMeta.select_by_keys, h]

/-- Witness for claim C7 on the concrete two-primary-key,
two-clustering-key schema. -/
theorem select_by_keys_extends_example :
    TableMeta.select_by_keys exKeys =
      TableMeta.select_by_key exKeys ++ " AND " ++
        joinSep "AND" (exKeys.cluster_keys.map (fun c => " " ++ c.1 ++ "=? ")) :=
  (select_by_keys_extends_select_by_key exKeys).2 (by decide)

/-- Claim C3 (code bug): the source tests bytes with `< 90`, but 90 is
the byte of the upper-case letter Z, so the upper-case range check is off
by one and every byte below 65 is treated as upper case as well.  On
"AZ" (bytes [65, 90]) the upper-case Z is passed through unchanged,
giving "aZ" ([97, 90]) where the claimed algorithm gives "a_z"; on "A0"
(bytes [65, 48]) the non-upper-case digit 0 is underscored and shifted to
P, giving "a_P" ([97, 95, 80]) where the claimed algorithm gives "a0". -/
theorem snake_case_uppercase_range_bug :
    pascal_case_to_snake_case [65, 90] = some [97, 90] ∧
    pascal_case_to_snake_case [65, 48] = some [97, 95, 80] ∧
    ¬ pascal_case_to_snake_case [65, 90] = some [97, 95, 122] ∧
    ¬ pascal_case_to_snake_case [65, 48] = some [97, 48] := by
  refine ⟨rfl, rfl, by decide, by decide⟩

/-- Claim C4 (code bug): table-name derivation is not idempotent.  On the
valid struct identifier "A0" (bytes [65, 48]) one application gives
"a_P" ([97, 95, 80]) and a second application gives "a__p"
([97, 95, 95, 112]), because the byte range slip of
`pascal_case_to_snake_case` maps the digit and later the produced P
again. -/
theorem snake_case_not_idempotent :
    pascal_case_to_snake_case [65, 48] = some [97, 95, 80] ∧
    (pascal_case_to_snake_case [65, 48]).bind pascal_case_to_snake_case =
      some [97, 95, 95, 112] ∧
    ¬ (pascal_case_to_snake_case [65, 48]).bind pascal_case_to_snake_case =
      pascal_case_to_snake_case [65, 48] := by
  refine ⟨rfl, rfl, by decide⟩

/-- Claim C8 counterexample: on the generated select template of the
concrete schema (one literal star), the Count projection result still
contains a literal star — the one inside the substituted
count(*) expression — so "no literal star in the result" fails. -/
theorem count_projection_keeps_a_star :
    (TableMeta.select_by_key exPlain).data.count '*' = 1 ∧
    ¬ (selectByPrimaryKeys exPlain Projection.Count).data.count '*' = 0 := by
  refine ⟨by decide, by decide⟩

/-- Claim C8 (amended): for a select template with exactly one star, the
Count projection replaces it by the count expression, which then occurs
exactly once, and no star remains outside that occurrence; the All
projection leaves the template unchanged; the Columns projection puts the
comma-joined column list in place of the star. -/
theorem projection_substitution (t : String) (h : t.data.count '*' = 1) :
    ∃ pre post : List Char,
      t.data = pre ++ ['*'] ++ post ∧
      pre.count '*' = 0 ∧ post.count '*' = 0 ∧
      (applyProjection Projection.Count t).data =
        pre ++ ("count(*) as count" : String).data ++ post ∧
      (∃! p : Nat, occursAt ("count(*) as count" : String).data
        ((applyProjection Projection.Count t).data) p) ∧
      applyProjection Projection.All t = t ∧
      (∀ cols : List String,
        (applyProjection (Projection.Columns cols) t).data =
          pre ++ (joinSep "," cols).data ++ post) := by
  obtain ⟨pre, post, hd, hp, hq⟩ := count_one_decomp '*' t.data h
  have hc : (applyProjection Projection.Count t).data =
      pre ++ ("count(*) as count" : String).data ++ post := by
    show ((t.data.map _).flatten) = _
    rw [hd]
    exact replace_map_decomp pre post _ hp hq
  refine ⟨pre, post, hd, hp, hq, hc, ?_, rfl, ?_⟩
  · have hpat : (("count(*) as count" : String).data).count '*' = 1 := by decide
    have hcount : ((applyProjection Projection.Count t).data).count '*' = 1 := by
      rw [hc, List.count_append, List.count_append, hp, hq, hpat]
    have hocc : occursAt ("count(*) as count" : String).data
        ((applyProjection Projection.Count t).data) pre.length := by
      refine ⟨post, ?_⟩
      rw [hc, List.append_assoc]
      exact List.drop_left pre _
    refine ⟨pre.length, hocc, ?_⟩
    intro p hpocc
    have h6 : (("count(*) as count" : String).data)[6]? = some '*' := by decide
    have hstar1 := occursAt_char_pos _ _ p 6 '*' h6 hpocc
    have hstar2 := occursAt_char_pos _ _ pre.length 6 '*' h6 hocc
    have := count_one_unique_pos '*' _ hcount (p + 6) (pre.length + 6) hstar1 hstar2
    omega
  · intro cols
    show ((t.data.map _).flatten) = _
    rw [hd]
    exact replace_map_decomp pre post _ hp hq

/-- Claim C1: for a schema with at least one updatable column (update
form) and at least one key column (delete form), the per-instance binding
lists are: updatable columns in SET-clause iteration order, then primary
keys in position order, then clustering keys in position order — and the
number of placeholders of each template equals the length of its binding
list, whose entries mirror the placeholders left to right. -/
theorem update_delete_binding_order (m : TableMeta)
    (hu : ¬ m.updatable_columns = [])
    (_hk : ¬ m.primary_keys ++ m.cluster_keys.map Prod.fst = [])
    (hks : '?' ∉ m.key_space.data) (hn : '?' ∉ m.name.data)
    (hcols : ∀ c ∈ m.updatable_columns ++ m.primary_keys ++
      m.cluster_keys.map Prod.fst, '?' ∉ c.data) :
    (∃ tmpl,
      m.update_stmt = some (tmpl,
        (m.updatable_columns ++ m.primary_keys ++ m.cluster_keys.map Prod.fst).map
          (fun c => "self." ++ c ++ ".clone()")) ∧
      tmpl = "UPDATE " ++ m.key_space ++ "." ++ m.name ++ " SET " ++
        joinSep "," (m.updatable_columns.map (fun c => c ++ "=?")) ++ " WHERE " ++
        joinSep " AND " ((m.primary_keys ++ m.cluster_keys.map Prod.fst).map
          (fun c => c ++ "=?")) ∧
      tmpl.data.count '?' =
        (m.updatable_columns ++ m.primary_keys ++
          m.cluster_keys.map Prod.fst).length) ∧
    (m.delete_stmt.2 =
      (m.primary_keys ++ m.cluster_keys.map Prod.fst).map
        (fun c => "self." ++ c ++ ".clone()") ∧
     m.delete_stmt.1 = "DELETE FROM " ++ m.key_space ++ "." ++ m.name ++
        " WHERE " ++
        joinSep " AND " ((m.primary_keys ++ m.cluster_keys.map Prod.fst).map
          (fun c => c ++ "=?")) ∧
     m.delete_stmt.1.data.count '?' =
        (m.primary_keys ++ m.cluster_keys.map Prod.fst).length) := by
  have hcu : ∀ c ∈ m.updatable_columns, '?' ∉ c.data := by
    intro c hc
    exact hcols c (by simp [hc])
  have hck : ∀ c ∈ m.primary_keys ++ m.cluster_keys.map Prod.fst, '?' ∉ c.data := by
    intro c hc
    exact hcols c (by
      rcases List.mem_append.mp hc with h1 | h1 <;> simp [h1])
  have hJ1 : (joinSep "," (m.updatable_columns.map (fun c => c ++ "=?"))).data.count '?' =
      m.updatable_columns.length := by
    have := count_joinSep_ones '?' ","
      (m.updatable_columns.map (fun c => c ++ "=?"))
      (by
        intro s hs
        obtain ⟨c, hc, rfl⟩ := List.mem_map.mp hs
        exact count_assign_one c (hcu c hc))
      (by decide)
    simpa using this
  have hJ2 : (joinSep " AND " ((m.primary_keys ++ m.cluster_keys.map Prod.fst).map
      (fun c => c ++ "=?"))).data.count '?' =
      (m.primary_keys ++ m.cluster_keys.map Prod.fst).length := by
    have := count_joinSep_ones '?' " AND "
      ((m.primary_keys ++ m.cluster_keys.map Prod.fst).map (fun c => c ++ "=?"))
      (by
        intro s hs
        obtain ⟨c, hc, rfl⟩ := List.mem_map.mp hs
        exact count_assign_one c (hck c hc))
      (by decide)
    simpa using this
  constructor
  · refine ⟨_, update_stmt_eq m hu, rfl, ?_⟩
    simp only [data_append, List.count_append, hJ1, hJ2,
      List.count_eq_zero.mpr hks, List.count_eq_zero.mpr hn, List.length_append]
    have hl1 : (("UPDATE " : String).data).count '?' = 0 := by decide
    have hl2 : (("." : String).data).count '?' = 0 := by decide
    have hl3 : ((" SET " : String).data).count '?' = 0 := by decide
    have hl4 : ((" WHERE " : String).data).count '?' = 0 := by decide
    rw [hl1, hl2, hl3, hl4]
    omega
  · refine ⟨by rw [delete_stmt_eq], by rw [delete_stmt_eq], ?_⟩
    rw [delete_stmt_eq]
    simp only [data_append, List.count_append, hJ2,
      List.count_eq_zero.mpr hks, List.count_eq_zero.mpr hn]
    have hl1 : (("DELETE FROM " : String).data).count '?' = 0 := by decide
    have hl2 : (("." : String).data).count '?' = 0 := by decide
    have hl4 : ((" WHERE " : String).data).count '?' = 0 := by decide
    rw [hl1, hl2, hl4]
    omega

/-- Witness for claim C1 on the concrete schema with two primary keys,
two clustering keys and one plain column. -/
theorem update_delete_binding_order_example :
    (∃ tmpl,
      TableMeta.update_stmt exKeys = some (tmpl,
        (exKeys.updatable_columns ++ exKeys.primary_keys ++
          exKeys.cluster_keys.map Prod.fst).map
          (fun c => "self." ++ c ++ ".clone()")) ∧
      tmpl = "UPDATE " ++ exKeys.key_space ++ "." ++ exKeys.name ++ " SET " ++
        joinSep "," (exKeys.updatable_columns.map (fun c => c ++ "=?")) ++
        " WHERE " ++
        joinSep " AND " ((exKeys.primary_keys ++ exKeys.cluster_keys.map Prod.fst).map
          (fun c => c ++ "=?")) ∧
      tmpl.data.count '?' =
        (exKeys.updatable_columns ++ exKeys.primary_keys ++
          exKeys.cluster_keys.map Prod.fst).length) ∧
    (exKeys.delete_stmt.2 =
      (exKeys.primary_keys ++ exKeys.cluster_keys.map Prod.fst).map
        (fun c => "self." ++ c ++ ".clone()") ∧
     exKeys.delete_stmt.1 = "DELETE FROM " ++ exKeys.key_space ++ "." ++
        exKeys.name ++ " WHERE " ++
        joinSep " AND " ((exKeys.primary_keys ++ exKeys.cluster_keys.map Prod.fst).map
          (fun c => c ++ "=?")) ∧
     exKeys.delete_stmt.1.data.count '?' =
        (exKeys.primary_keys ++ exKeys.cluster_keys.map Prod.fst).length) :=
  update_delete_binding_order exKeys (by decide) (by decide) (by decide)
    (by decide) (by decide)

/-- Claim C2 counterexample: on the schema whose only declared column `a`
is a primary key while a second primary key `b` has no declared column
type, `update_query` signals the no-updatable-columns error although the
declared column set does not equal the union of the key sets. -/
theorem update_query_error_without_set_equality :
    TableMeta.update_query exKeysOnly =
      Except.error "Table t does not have any updatable column" ∧
    ¬ (∀ x : String, x ∈ exKeysOnly.columns.map Prod.fst ↔
        x ∈ exKeysOnly.primary_keys ++ exKeysOnly.cluster_keys.map Prod.fst) := by
  constructor
  · rfl
  · intro hall
    have hmem := (hall "b").mpr (by decide)
    exact absurd hmem (by decide)

/-- Claim C2 (amended): `update_query` signals the no-updatable-columns
error exactly when every declared column is registered as a primary key
or as a clustering key (a subset condition — registered keys need not be
declared columns); otherwise it returns an UPDATE statement whose SET
clause is nonempty. -/
theorem update_query_error_iff_all_columns_are_keys (m : TableMeta) :
    ((∃ e, m.update_query = Except.error e) ↔
      ∀ kt ∈ m.columns,
        kt.1 ∈ m.primary_keys ∨ kt.1 ∈ m.cluster_keys.map Prod.fst) ∧
    (∀ tmpl vals, m.update_query = Except.ok (tmpl, vals) →
      ∃ setPart wherePart, ¬ setPart = "" ∧
        tmpl = "UPDATE " ++ m.key_space ++ "." ++ m.name ++ " SET " ++ setPart ++
          " WHERE " ++ wherePart) := by
  by_cases hu : m.updatable_columns = []
  · have herr : m.update_query =
        Except.error ("Table " ++ m.name ++ " does not have any updatable column") := by
      unfold TableMeta.update_query TableMeta.update_stmt
      rw [if_pos hu]
      rfl
    constructor
    · rw [← updatable_columns_eq_nil_iff]
      exact ⟨fun _ => hu, fun _ => ⟨_, herr⟩⟩
    · intro tmpl vals hok
      rw [herr] at hok
      exact absurd hok (by simp)
  · have hTT : ¬ ("UPDATE " ++ m.key_space ++ "." ++ m.name ++ " SET " ++
        joinSep "," (m.updatable_columns.map (fun c => c ++ "=?")) ++ " WHERE " ++
        joinSep " AND " ((m.primary_keys ++ m.cluster_keys.map Prod.fst).map
          (fun c => c ++ "=?"))) = "" := by
      simp only [String.append_assoc]
      exact append_left_ne_empty "UPDATE " _ (by decide)
    have hq : m.update_query = Except.ok
        ("UPDATE " ++ m.key_space ++ "." ++ m.name ++ " SET " ++
          joinSep "," (m.updatable_columns.map (fun c => c ++ "=?")) ++ " WHERE " ++
          joinSep " AND " ((m.primary_keys ++ m.cluster_keys.map Prod.fst).map
            (fun c => c ++ "=?")),
         (m.updatable_columns ++ m.primary_keys ++ m.cluster_keys.map Prod.fst).map
           (fun c => "self." ++ c ++ ".clone()")) := by
      unfold TableMeta.update_query
      rw [update_stmt_eq m hu]
      simp only [Option.getD_some]
      rw [if_neg hTT]
    constructor
    · rw [← updatable_columns_eq_nil_iff]
      constructor
      · rintro ⟨e, he⟩
        rw [hq] at he
        exact absurd he (by simp)
      · intro hnil
        exact absurd hnil hu
    · intro tmpl vals hok
      rw [hq] at hok
      have hpair := Except.ok.inj hok
      have htmpl : tmpl = "UPDATE " ++ m.key_space ++ "." ++ m.name ++ " SET " ++
          joinSep "," (m.updatable_columns.map (fun c => c ++ "=?")) ++ " WHERE " ++
          joinSep " AND " ((m.primary_keys ++ m.cluster_keys.map Prod.fst).map
            (fun c => c ++ "=?")) := (congrArg Prod.fst hpair).symm
      obtain ⟨u0, us, hus⟩ : ∃ u0 us, m.updatable_columns = u0 :: us := by
        cases h : m.updatable_columns with
        | nil => exact absurd h hu
        | cons a l => exact ⟨a, l, rfl⟩
      refine ⟨joinSep "," (m.updatable_columns.map (fun c => c ++ "=?")),
        joinSep " AND " ((m.primary_keys ++ m.cluster_keys.map Prod.fst).map
          (fun c => c ++ "=?")), ?_, htmpl⟩
      rw [hus, List.map_cons]
      obtain ⟨r, hr⟩ := joinSep_cons_data "," (u0 ++ "=?")
        (us.map (fun c => c ++ "=?"))
      intro hc
      have hdata := congrArg String.data hc
      rw [hr] at hdata
      have hnil : ("" : String).data = [] := rfl
      rw [hnil, data_append] at hdata
      have h0 := (List.append_eq_nil.mp hdata).1
      have h1 := (List.append_eq_nil.mp h0).2
      exact absurd h1 (by decide)

/-- Witness for claim C2 on the concrete plain-column schema, where
`update_query` succeeds with a nonempty SET clause. -/
theorem update_query_error_iff_example :
    ∃ setPart wherePart, ¬ setPart = "" ∧
      "UPDATE test.user SET first_name=? WHERE username=?" =
        "UPDATE " ++ exPlain.key_space ++ "." ++ exPlain.name ++ " SET " ++
          setPart ++ " WHERE " ++ wherePart :=
  (update_query_error_iff_all_columns_are_keys exPlain).2
    "UPDATE test.user SET first_name=? WHERE username=?"
    ["self.first_name.clone()", "self.username.clone()"] (by rfl)

/-- Claim C9: the insert template lists every declared column; its
placeholder count equals the declared column count; the binding list has
the same length; and the i-th binding extracts the i-th emitted
column. -/
theorem store_template_bindings (m : TableMeta)
    (hks : '?' ∉ m.key_space.data) (hn : '?' ∉ m.name.data)
    (hcols : ∀ kt ∈ m.columns, '?' ∉ kt.1.data) :
    m.store_stmt.data.count '?' = m.columns.length ∧
    m.store_values.length = m.columns.length ∧
    m.store_stmt = "INSERT INTO " ++ m.key_space ++ "." ++ m.name ++ " (" ++
      joinSep "," (m.columns.map Prod.fst) ++ ") VALUES (" ++
      String.mk (bindMarksData m.columns.length) ++ ")" ∧
    ∀ i : Nat, m.store_values[i]? =
      (m.columns.map Prod.fst)[i]?.map (fun n => "self." ++ n ++ ".clone()") := by
  refine ⟨?_, by simp [TableMeta.store_values], rfl, ?_⟩
  · have hJ : (joinSep "," (m.columns.map Prod.fst)).data.count '?' = 0 := by
      refine count_joinSep_zero '?' "," (m.columns.map Prod.fst) ?_ (by decide)
      intro s hs
      obtain ⟨kt, hkt, rfl⟩ := List.mem_map.mp hs
      exact hcols kt hkt
    show (("INSERT INTO " ++ m.key_space ++ "." ++ m.name ++ " (" ++
      joinSep "," (m.columns.map Prod.fst) ++ ") VALUES (" ++
      String.mk (bindMarksData m.columns.length) ++ ")").data).count '?' =
      m.columns.length
    simp only [data_append, List.count_append, hJ,
      List.count_eq_zero.mpr hks, List.count_eq_zero.mpr hn]
    have hl1 : (("INSERT INTO " : String).data).count '?' = 0 := by decide
    have hl2 : (("." : String).data).count '?' = 0 := by decide
    have hl3 : ((" (" : String).data).count '?' = 0 := by decide
    have hl4 : ((") VALUES (" : String).data).count '?' = 0 := by decide
    have hl5 : (((")" : String)).data).count '?' = 0 := by decide
    have hmk : (String.mk (bindMarksData m.columns.length)).data.count '?' =
        m.columns.length := bindMarksData_count m.columns.length
    rw [hl1, hl2, hl3, hl4, hl5, hmk]
    omega
  · intro i
    show ((m.columns.map (fun kt => "self." ++ kt.1 ++ ".clone()"))[i]?) = _
    rw [List.getElem?_map, List.getElem?_map, Option.map_map]
    rfl

/-- Witness for claim C9 on the concrete five-column schema. -/
theorem store_template_bindings_example :
    (TableMeta.store_stmt exKeys).data.count '?' = exKeys.columns.length ∧
    (TableMeta.store_values exKeys).length = exKeys.columns.length ∧
    TableMeta.store_stmt exKeys = "INSERT INTO " ++ exKeys.key_space ++ "." ++
      exKeys.name ++ " (" ++ joinSep "," (exKeys.columns.map Prod.fst) ++
      ") VALUES (" ++ String.mk (bindMarksData exKeys.columns.length) ++ ")" ∧
    ∀ i : Nat, (TableMeta.store_values exKeys)[i]? =
      (exKeys.columns.map Prod.fst)[i]?.map (fun n => "self." ++ n ++ ".clone()") :=
  store_template_bindings exKeys (by decide) (by decide) (by decide)

/-- Claim C5: the generated CREATE TABLE statement contains the clause
`PRIMARY KEY (p1,...,pn)` when no clustering key exists — that clause
holding a single pair of parentheses around the comma-joined primary keys
in position order — and `PRIMARY KEY ((p1,...,pn), c1,...,cm)` with both
groups in position order when clustering keys exist. -/
theorem create_table_primary_key_clause (m : TableMeta)
    (hp : ∀ p ∈ m.primary_keys, ¬ '(' ∈ p.data ∧ ¬ ')' ∈ p.data) :
    (m.cluster_keys = [] →
      (∃ pre post : List Char, m.create_table_cql.data =
        pre ++ ("PRIMARY KEY (" ++ joinSep "," m.primary_keys ++ ")").data ++
          post) ∧
      ("PRIMARY KEY (" ++ joinSep "," m.primary_keys ++ ")").data.count '(' = 1 ∧
      ("PRIMARY KEY (" ++ joinSep "," m.primary_keys ++ ")").data.count ')' = 1) ∧
    (¬ m.cluster_keys = [] →
      ∃ pre post : List Char, m.create_table_cql.data =
        pre ++ ("PRIMARY KEY ((" ++ joinSep "," m.primary_keys ++ "), " ++
          joinSep "," (m.cluster_keys.map Prod.fst) ++ ")").data ++ post) := by
  constructor
  · intro h
    refine ⟨?_, ?_, ?_⟩
    · rw [create_table_cql_no_ck m h]
      refine ⟨("CREATE TABLE IF NOT EXISTS " ++ m.key_space ++ "." ++ m.name ++
          " " ++ " (" ++ m.colDefs ++ ", ").data,
        (" ) " ++ (if m.optParts.length > 0 then
          "AND " ++ joinSep " AND " m.optParts else "")).data, ?_⟩
      simp [data_append, List.append_assoc]
    · have hJ : (joinSep "," m.primary_keys).data.count '(' = 0 :=
        count_joinSep_zero '(' "," m.primary_keys (fun p hp2 => (hp p hp2).1)
          (by decide)
      simp only [data_append, List.count_append, hJ]
      decide
    · have hJ : (joinSep "," m.primary_keys).data.count ')' = 0 :=
        count_joinSep_zero ')' "," m.primary_keys (fun p hp2 => (hp p hp2).2)
          (by decide)
      simp only [data_append, List.count_append, hJ]
      decide
  · intro h
    cases hck : m.cluster_keys with
    | nil => exact absurd hck h
    | cons c0 cs =>
      rw [create_table_cql_with_ck m c0 cs hck]
      refine ⟨("CREATE TABLE IF NOT EXISTS " ++ m.key_space ++ "." ++ m.name ++
          " " ++ " (" ++ m.colDefs ++ ", ").data,
        (" ) " ++ (if m.optParts.length > 0 then
          "WITH CLUSTERING ORDER BY (" ++
            joinSep "," ((c0 :: cs).map (fun co => co.1 ++ " " ++ co.2)) ++ ")" ++
            " AND " ++ joinSep " AND " m.optParts
         else
          "WITH CLUSTERING ORDER BY (" ++
            joinSep "," ((c0 :: cs).map (fun co => co.1 ++ " " ++ co.2)) ++
            ")")).data, ?_⟩
      simp [data_append, List.append_assoc]

/-- Witness for claim C5 on the concrete schema with two primary keys and
two clustering keys. -/
theorem create_table_primary_key_clause_example :
    ∃ pre post : List Char, (TableMeta.create_table_cql exKeys).data =
      pre ++ ("PRIMARY KEY ((" ++ joinSep "," exKeys.primary_keys ++ "), " ++
        joinSep "," (exKeys.cluster_keys.map Prod.fst) ++ ")").data ++ post :=
  (create_table_primary_key_clause exKeys (by decide)).2 (by decide)

/-- Claim C6 counterexample: on the concrete schema whose static column
`a` is declared with the lower-case type `text`, the CREATE TABLE
statement emits `a text STATIC` — the declared type verbatim — and not
`a TEXT STATIC` as the upper-casing claim requires. -/
theorem static_column_type_not_uppercased :
    (¬ ∃ pre post : List Char,
      (TableMeta.create_table_cql exStatic).data =
        pre ++ ("a TEXT STATIC" : String).data ++ post) ∧
    (∃ pre post : List Char,
      (TableMeta.create_table_cql exStatic).data =
        pre ++ ("a text STATIC" : String).data ++ post) := by
  constructor
  · rintro ⟨pre, post, hdec⟩
    have hs : hasSub (("a TEXT STATIC" : String)).data
        ((TableMeta.create_table_cql exStatic)).data = true :=
      (hasSub_iff _ _).mpr ⟨pre, post, hdec⟩
    exact absurd hs (by decide)
  · have hs : hasSub (("a text STATIC" : String)).data
        ((TableMeta.create_table_cql exStatic)).data = true := by decide
    obtain ⟨a, b, hab⟩ := (hasSub_iff _ _).mp hs
    exact ⟨a, b, hab⟩

/-- Claim C6 (amended): every declared column is emitted in the CREATE
TABLE column list as its name, a space, and its type — the type
upper-cased for non-static columns, but verbatim (not upper-cased) with
" STATIC" appended for static columns. -/
theorem create_table_column_defs (m : TableMeta) :
    ∀ kt ∈ m.columns, ∃ pre post : List Char,
      m.create_table_cql.data = pre ++
        ((if m.static_columns.contains kt.1 then
            kt.1 ++ " " ++ kt.2 ++ " STATIC"
          else kt.1 ++ " " ++ rustToUpper kt.2) : String).data ++ post := by
  intro kt hkt
  have hmem := List.mem_map_of_mem (fun kt : String × String =>
    if m.static_columns.contains kt.1 then kt.1 ++ " " ++ kt.2 ++ " STATIC"
    else kt.1 ++ " " ++ rustToUpper kt.2) hkt
  obtain ⟨a, b, hab⟩ := joinSep_mem_decomp "," _ _ hmem
  have hab2 : (TableMeta.colDefs m).data = a ++
      ((if m.static_columns.contains kt.1 then kt.1 ++ " " ++ kt.2 ++ " STATIC"
        else kt.1 ++ " " ++ rustToUpper kt.2) : String).data ++ b := hab
  cases hck : m.cluster_keys with
  | nil =>
    rw [create_table_cql_no_ck m hck]
    refine ⟨("CREATE TABLE IF NOT EXISTS " ++ m.key_space ++ "." ++ m.name ++
        " " ++ " (").data ++ a,
      b ++ (", PRIMARY KEY (" ++ joinSep "," m.primary_keys ++ ") ) " ++
        (if m.optParts.length > 0 then "AND " ++ joinSep " AND " m.optParts
         else "")).data, ?_⟩
    simp only [data_append, hab2]
    simp [List.append_assoc]
  | cons c0 cs =>
    rw [create_table_cql_with_ck m c0 cs hck]
    refine ⟨("CREATE TABLE IF NOT EXISTS " ++ m.key_space ++ "." ++ m.name ++
        " " ++ " (").data ++ a,
      b ++ (", PRIMARY KEY ((" ++ joinSep "," m.primary_keys ++ "), " ++
        joinSep "," ((c0 :: cs).map Prod.fst) ++ ") ) " ++
        (if m.optParts.length > 0 then
          "WITH CLUSTERING ORDER BY (" ++
            joinSep "," ((c0 :: cs).map (fun co => co.1 ++ " " ++ co.2)) ++ ")" ++
            " AND " ++ joinSep " AND " m.optParts
         else
          "WITH CLUSTERING ORDER BY (" ++
            joinSep "," ((c0 :: cs).map (fun co => co.1 ++ " " ++ co.2)) ++
            ")")).data, ?_⟩
    simp only [data_append, hab2]
    simp [List.append_assoc]

/-- Witness for claim C6 on the concrete static-column schema. -/
theorem create_table_column_defs_example :
    ∃ pre post : List Char,
      (TableMeta.create_table_cql exStatic).data = pre ++
        ((if exStatic.static_columns.contains "a" then
            "a" ++ " " ++ "text" ++ " STATIC"
          else "a" ++ " " ++ rustToUpper "text") : String).data ++ post :=
  create_table_column_defs exStatic ("a", "text") (by decide)

/-- Unfolding equation of the UTF-8 automaton at a lead-byte state. -/
theorem utf8Aux_cons_zero (b : Nat) (rest : List Nat) (lo hi : Nat) :
    utf8Aux (b :: rest) 0 lo hi =
      (if b ≤ 0x7F then utf8Aux rest 0 0 0
       else if 0xC2 ≤ b ∧ b ≤ 0xDF then utf8Aux rest 1 0x80 0xC0
       else if b = 0xE0 then utf8Aux rest 2 0xA0 0xC0
       else if b = 0xED then utf8Aux rest 2 0x80 0xA0
       else if 0xE0 ≤ b ∧ b ≤ 0xEF then utf8Aux rest 2 0x80 0xC0
       else if b = 0xF0 then utf8Aux rest 3 0x90 0xC0
       else if b = 0xF4 then utf8Aux rest 3 0x80 0x90
       else if 0xF0 ≤ b ∧ b ≤ 0xF4 then utf8Aux rest 3 0x80 0xC0
       else false) := rfl

/-- Unfolding equation of the automaton at a continuation-byte state. -/
theorem utf8Aux_cons_succ (b : Nat) (rest : List Nat) (e lo hi : Nat) :
    utf8Aux (b :: rest) (e + 1) lo hi =
      (decide (lo ≤ b ∧ b < hi) && utf8Aux rest e 0x80 0xC0) := rfl

/-- The byte-rewriting loop preserves UTF-8 validity in every automaton
state: bytes below 90 are ASCII and are replaced by two ASCII bytes (the
underscore and byte + 32, which stays below 128), while every
continuation or lead byte of a multi-byte sequence is at least 128 and is
passed through unchanged. -/
theorem utf8Aux_snakeTail : ∀ bs : List Nat,
    (∀ lo hi : Nat, utf8Aux bs 0 lo hi = true →
      utf8Aux (snakeTail bs) 0 lo hi = true) ∧
    (∀ e lo hi : Nat, 0x80 ≤ lo → utf8Aux bs (e + 1) lo hi = true →
      utf8Aux (snakeTail bs) (e + 1) lo hi = true) := by
  intro bs
  induction bs with
  | nil =>
    refine ⟨fun lo hi h => h, fun e lo hi _ h => ?_⟩
    simpa using h
  | cons b rest ih =>
    constructor
    · intro lo hi h
      rw [utf8Aux_cons_zero] at h
      by_cases h1 : b ≤ 0x7F
      · rw [if_pos h1] at h
        by_cases hb90 : b < 90
        · have hs : snakeTail (b :: rest) = 95 :: (b + 32) :: snakeTail rest := by
            simp [snakeTail, hb90]
          rw [hs, utf8Aux_cons_zero, if_pos (by omega : (95 : Nat) ≤ 0x7F),
            utf8Aux_cons_zero, if_pos (by omega : b + 32 ≤ 0x7F)]
          exact ih.1 0 0 h
        · have hs : snakeTail (b :: rest) = b :: snakeTail rest := by
            simp [snakeTail, hb90]
          rw [hs, utf8Aux_cons_zero, if_pos h1]
          exact ih.1 0 0 h
      · have hb90 : ¬ b < 90 := by omega
        have hs : snakeTail (b :: rest) = b :: snakeTail rest := by
          simp [snakeTail, hb90]
        rw [hs, utf8Aux_cons_zero, if_neg h1]
        rw [if_neg h1] at h
        by_cases hA : 0xC2 ≤ b ∧ b ≤ 0xDF
        · rw [if_pos hA] at h ⊢
          exact ih.2 0 0x80 0xC0 (by omega) h
        rw [if_neg hA] at h ⊢
        by_cases hB : b = 0xE0
        · rw [if_pos hB] at h ⊢
          exact ih.2 1 0xA0 0xC0 (by omega) h
        rw [if_neg hB] at h ⊢
        by_cases hC : b = 0xED
        · rw [if_pos hC] at h ⊢
          exact ih.2 1 0x80 0xA0 (by omega) h
        rw [if_neg hC] at h ⊢
        by_cases hD : 0xE0 ≤ b ∧ b ≤ 0xEF
        · rw [if_pos hD] at h ⊢
          exact ih.2 1 0x80 0xC0 (by omega) h
        rw [if_neg hD] at h ⊢
        by_cases hE : b = 0xF0
        · rw [if_pos hE] at h ⊢
          exact ih.2 2 0x90 0xC0 (by omega) h
        rw [if_neg hE] at h ⊢
        by_cases hF : b = 0xF4
        · rw [if_pos hF] at h ⊢
          exact ih.2 2 0x80 0x90 (by omega) h
        rw [if_neg hF] at h ⊢
        by_cases hG : 0xF0 ≤ b ∧ b ≤ 0xF4
        · rw [if_pos hG] at h ⊢
          exact ih.2 2 0x80 0xC0 (by omega) h
        rw [if_neg hG] at h
        exact absurd h (by simp)
    · intro e lo hi hlo h
      rw [utf8Aux_cons_succ] at h
      obtain ⟨hb, hrest⟩ := Bool.and_eq_true_iff.mp h
      have hbn := of_decide_eq_true hb
      have hs : snakeTail (b :: rest) = b :: snakeTail rest := by
        have : ¬ b < 90 := by omega
        simp [snakeTail, this]
      rw [hs, utf8Aux_cons_succ]
      cases e with
      | zero =>
        simp only [hb, Bool.true_and]
        exact ih.1 0x80 0xC0 hrest
      | succ e2 =>
        simp only [hb, Bool.true_and]
        exact ih.2 e2 0x80 0xC0 (by omega) hrest

/-- Claim C10: table-name derivation is total.  On every valid UTF-8 byte
sequence the final from_utf8 unwrap cannot panic: bytes below 90 are
mapped to byte + 32 (a single ASCII byte, with an ASCII underscore
inserted before it past position 0) and every byte at or above 90 —
including every byte of a multi-byte UTF-8 sequence — passes through
unchanged, so the output byte vector stays valid UTF-8. -/
theorem snake_case_total_on_utf8 (bs : List Nat) (h : utf8Valid bs = true) :
    (pascal_case_to_snake_case bs).isSome = true := by
  unfold pascal_case_to_snake_case
  by_cases hlen : bs.length < 2
  · rw [if_pos hlen]
    rfl
  · rw [if_neg hlen]
    cases bs with
    | nil => rfl
    | cons b rest =>
      simp only [utf8Valid] at h
      rw [utf8Aux_cons_zero] at h
      by_cases hb90 : b < 90
      · have hb : b ≤ 0x7F := by omega
        rw [if_pos hb] at h
        have hout : utf8Valid ((b + 32) :: snakeTail rest) = true := by
          simp only [utf8Valid]
          rw [utf8Aux_cons_zero, if_pos (by omega : b + 32 ≤ 0x7F)]
          exact (utf8Aux_snakeTail rest).1 0 0 h
        simp [hb90, hout]
      · have hout : utf8Valid (b :: snakeTail rest) = true := by
          have hs : snakeTail (b :: rest) = b :: snakeTail rest := by
            simp [snakeTail, hb90]
          rw [← hs]
          simp only [utf8Valid]
          refine (utf8Aux_snakeTail (b :: rest)).1 0 0 ?_
          rw [utf8Aux_cons_zero]
          exact h
        simp [hb90, hout]

/-- Witness for claim C10 on the valid UTF-8 input "Aé"
(bytes [65, 195, 169], with a two-byte sequence). -/
theorem snake_case_total_example :
    utf8Valid [65, 195, 169] = true ∧
    (pascal_case_to_snake_case [65, 195, 169]).isSome = true :=
  ⟨by decide, snake_case_total_on_utf8 [65, 195, 169] (by decide)⟩

/-- Witness for claim C8 on the generated select-by-primary-keys template
of the concrete schema. -/
theorem projection_substitution_example :
    ∃ pre post : List Char,
      (TableMeta.select_by_key exPlain).data = pre ++ ['*'] ++ post ∧
      pre.count '*' = 0 ∧ post.count '*' = 0 ∧
      (applyProjection Projection.Count (TableMeta.select_by_key exPlain)).data =
        pre ++ ("count(*) as count" : String).data ++ post ∧
      (∃! p : Nat, occursAt ("count(*) as count" : String).data
        ((applyProjection Projection.Count (TableMeta.select_by_key exPlain)).data) p) ∧
      applyProjection Projection.All (TableMeta.select_by_key exPlain) =
        TableMeta.select_by_key exPlain ∧
      (∀ cols : List String,
        (applyProjection (Projection.Columns cols) (TableMeta.select_by_key exPlain)).data =
          pre ++ (joinSep "," cols).data ++ post) :=
  projection_substitution (TableMeta.select_by_key exPlain) (by decide)

end CassandraGen
